import Mathlib

/-!
Verification of the epoch-based reclamation (EBR) engine in atomic-rs.

The development shallowly embeds the three source files of the repository:
  src/gc/epoch.rs  (Epoch, Flag and their atomics)
  src/gc/stack.rs  (AtomicStack, StackGuard, try_own)
  src/gc/gc.rs     (Bag, Global, Local, PinGuard, migrate)
Atomic cells become plain fields of explicit state records; each Rust
method becomes a pure Lean function on those records. Where a claim is
about interleaved executions, the relevant method is split at its atomic
operations so that a concrete schedule can be replayed step by step.
-/

namespace AtomicRs

/-! ## Epoch (src/gc/epoch.rs, lines 6-29)

Rust: an enum with repr(usize) values Epoch0 = 0, Epoch1 = 1, Epoch2 = 2.
increase is transmute((self as usize + 1) % 3) and decrease is
transmute((self as usize + 2) % 3); the transmute argument is always
reduced mod 3, hence always a valid discriminant. -/

inductive Epoch where
  | Epoch0
  | Epoch1
  | Epoch2
deriving DecidableEq, Repr

/-- Numeric discriminant of the repr(usize) enum. -/
def Epoch.toUsize : Epoch → Nat
  | .Epoch0 => 0
  | .Epoch1 => 1
  | .Epoch2 => 2

/-- Inverse of the discriminant map; the source only ever transmutes
values already reduced mod 3, so the catch-all branch is never reached
on the arguments this file applies it to. -/
def Epoch.ofUsize : Nat → Epoch
  | 0 => .Epoch0
  | 1 => .Epoch1
  | 2 => .Epoch2
  | _ => .Epoch0

/-- Embeds Epoch::increase (epoch.rs lines 21-24). -/
def Epoch.increase (e : Epoch) : Epoch :=
  Epoch.ofUsize ((e.toUsize + 1) % 3)

/-- Embeds Epoch::decrease (epoch.rs lines 25-28). -/
def Epoch.decrease (e : Epoch) : Epoch :=
  Epoch.ofUsize ((e.toUsize + 2) % 3)

/-- Embeds Default for Epoch (epoch.rs lines 14-18). -/
def Epoch.default : Epoch := .Epoch0

/-! ## Flag (src/gc/epoch.rs, lines 70-95)

Rust: enum with repr(usize) values Epoch0..Epoch2 coinciding with Epoch
and an extra Unpin = 3. from_epoch is a transmute, i.e. the numeric
identity on the three epoch values. -/

inductive Flag where
  | Epoch0
  | Epoch1
  | Epoch2
  | Unpin
deriving DecidableEq, Repr

/-- Numeric discriminant of the repr(usize) flag enum. -/
def Flag.toUsize : Flag → Nat
  | .Epoch0 => 0
  | .Epoch1 => 1
  | .Epoch2 => 2
  | .Unpin => 3

/-- Embeds Flag::from_epoch (epoch.rs lines 85-88): a transmute, so the
flag with the same discriminant as the epoch. -/
def Flag.from_epoch : Epoch → Flag
  | .Epoch0 => .Epoch0
  | .Epoch1 => .Epoch1
  | .Epoch2 => .Epoch2

/-- Embeds Default for Flag (epoch.rs lines 91-95). -/
def Flag.default : Flag := .Unpin

/-! ## Lock-free stack, sequential contents model (src/gc/stack.rs)

The chain of nodes reachable from the head pointer is modelled as a
list whose first element is the payload of the head node. boxed_push
(lines 55-78) links a fresh node in front of the head, so it prepends;
boxed_pop (lines 79-103) unlinks the head node and returns its payload,
so it takes the first element (in the sequential model the CAS always
succeeds on the first try). -/

/-- Embeds AtomicStack::boxed_push on the node chain: the new node
becomes the head and its next pointer is the old head. -/
def boxed_push {T : Type} (stack : List T) (value : T) : List T :=
  value :: stack

/-- Embeds AtomicStack::boxed_pop on the node chain: a null head gives
none; otherwise the head node is unlinked and its payload returned. -/
def boxed_pop {T : Type} : List T → Option T × List T
  | [] => (none, [])
  | v :: rest => (some v, rest)

/-- A sequential history of operations on one stack. -/
inductive StackOp (T : Type) where
  | push (v : T)
  | pop
deriving DecidableEq, Repr

/-- Runs a sequential history against the node-chain model, starting
from the given chain. -/
def runOps {T : Type} : List (StackOp T) → List T → List T
  | [], s => s
  | .push v :: rest, s => runOps rest (boxed_push s v)
  | .pop :: rest, s => runOps rest (boxed_pop s).2

/-- Specification view of a history: the values pushed and not yet
popped, in push order (oldest first). A pop removes the most recent
pending push. -/
def pendingOf {T : Type} : List (StackOp T) → List T → List T
  | [], acc => acc
  | .push v :: rest, acc => pendingOf rest (acc ++ [v])
  | .pop :: rest, acc => pendingOf rest acc.dropLast

/-- Pops a stack n times, collecting the results in order. -/
def popStream {T : Type} : Nat → List T → List (Option T)
  | 0, _ => []
  | n + 1, s =>
    let r := boxed_pop s
    r.1 :: popStream n r.2

/-- Pushes a list of values in order onto a stack. -/
def pushAll {T : Type} (s : List T) : List T → List T
  | [] => s
  | v :: rest => pushAll (boxed_push s v) rest

/-! ## Stack ownership (src/gc/stack.rs, lines 13-27 and 116-126)

try_own compare-exchanges is_taken from false to true and, on success,
returns a StackGuard; StackGuard::drop stores false into is_taken. The
model tracks the boolean together with a ghost count of live guards. -/

structure OwnState where
  is_taken : Bool
  liveGuards : Nat
deriving DecidableEq, Repr

/-- The state of a freshly constructed stack: not taken, no guard. -/
def OwnState.init : OwnState := ⟨false, 0⟩

/-- Embeds AtomicStack::try_own (stack.rs lines 116-126): the CAS on
is_taken succeeds exactly when it was false, in which case a guard is
produced; otherwise none is returned and nothing changes. -/
def try_own (s : OwnState) : Option Unit × OwnState :=
  if s.is_taken then (none, s)
  else (some (), ⟨true, s.liveGuards + 1⟩)

/-- Ownership events on one stack: a try_own call, or the destruction
of a live guard (StackGuard::drop, stack.rs lines 23-27, which stores
false into is_taken). Destroying a guard requires one to be live, so
the event is a no-op when no guard exists. -/
inductive OwnAction where
  | tryOwn
  | dropGuard
deriving DecidableEq, Repr

/-- One ownership event. -/
def ownStep (s : OwnState) : OwnAction → OwnState
  | .tryOwn => (try_own s).2
  | .dropGuard => if s.liveGuards = 0 then s else ⟨false, s.liveGuards - 1⟩

/-- A sequence of ownership events from the initial state. -/
def ownRun (acts : List OwnAction) : OwnState :=
  acts.foldl ownStep OwnState.init

/-! ## Bag (src/gc/gc.rs, lines 12-32)

A Bag is a Vec of at most CAP owned payloads; push appends at the end,
is_full compares the length with CAP. -/

structure Bag (T : Type) (CAP : Nat) where
  data : List T
deriving DecidableEq, Repr

/-- Embeds Default for Bag (gc.rs lines 17-23): an empty vector (the
preallocated capacity has no observable content). -/
def Bag.empty {T : Type} {CAP : Nat} : Bag T CAP := ⟨[]⟩

/-- Embeds Bag::is_full (gc.rs lines 26-28). -/
def Bag.is_full {T : Type} {CAP : Nat} (b : Bag T CAP) : Bool :=
  b.data.length == CAP

/-- Embeds Bag::push (gc.rs lines 29-31): Vec::push appends. -/
def Bag.push {T : Type} {CAP : Nat} (b : Bag T CAP) (value : T) : Bag T CAP :=
  ⟨b.data ++ [value]⟩

/-! ## Global coordinator state (src/gc/gc.rs, lines 34-39)

Global holds the atomic epoch, three stacks of bags indexed by the
epoch discriminant, and the roster stack of participant flags. The
roster is modelled by the list of flag values in stack order (head of
the stack first) plus its is_taken bit; a ghost list records every
payload whose destructor has run, in destruction order. -/

structure Bags3 (T : Type) where
  b0 : List (List T)
  b1 : List (List T)
  b2 : List (List T)
deriving DecidableEq, Repr

/-- Contents of the bag stack indexed by the discriminant of e
(gc.rs: self.bags[e as usize]); each entry is the data list of one
migrated bag, head of the stack first. -/
def Bags3.get {T : Type} (b : Bags3 T) : Epoch → List (List T)
  | .Epoch0 => b.b0
  | .Epoch1 => b.b1
  | .Epoch2 => b.b2

/-- Replaces the bag stack indexed by e. -/
def Bags3.set {T : Type} (b : Bags3 T) : Epoch → List (List T) → Bags3 T
  | .Epoch0, l => { b with b0 := l }
  | .Epoch1, l => { b with b1 := l }
  | .Epoch2, l => { b with b2 := l }

structure GlobalState (T : Type) where
  epoch : Epoch
  bags : Bags3 T
  flags : List Flag
  rosterTaken : Bool
  destroyed : List T
deriving DecidableEq, Repr

/-- Embeds the derived Default constructor of Global (gc.rs lines
34-39): default epoch Epoch0 (epoch.rs lines 14-18 and 64-68), three
empty bag stacks and an empty, untaken roster (stack.rs lines 42-49).
The derive performs no validation of the CAP parameter and has no
failure path, so construction is a total function of CAP; the CAP
argument only fixes the type of the bags. -/
def Global.defaultState (T : Type) (CAP : Nat) : GlobalState T :=
  { epoch := Epoch.default
    bags := ⟨[], [], []⟩
    flags := []
    rosterTaken := false
    destroyed := [] }

/-! ## Global::migrate (src/gc/gc.rs, lines 52-71)

The function is split at the atomic operation boundary between the
roster scan and the drain, so that interleaved schedules can be
replayed; the sequential Global.migrate below is the composition of the
two parts. guardEpoch is guard.epoch of the PinGuard argument and bag
is the data list of the migrated full bag. -/

/-- First half of Global::migrate: line 54 pushes the bag onto
bags[guard.epoch]; line 56 loads the global epoch; line 59 try_owns the
roster (on failure the function returns); lines 60-64 scan every roster
flag against Flag::from_epoch(epoch.decrease()) and return early on a
hit, dropping the stack guard. The result carries the loaded epoch when
the pass proceeds to the drain, and none when it returned. -/
def migrateScanPart {T : Type} (s : GlobalState T) (guardEpoch : Epoch)
    (bag : List T) : GlobalState T × Option Epoch :=
  let s := { s with bags := s.bags.set guardEpoch (bag :: s.bags.get guardEpoch) }
  let epoch := s.epoch
  if s.rosterTaken then
    (s, none)
  else
    let s := { s with rosterTaken := true }
    if s.flags.any (fun f => f == Flag.from_epoch epoch.decrease) then
      ({ s with rosterTaken := false }, none)
    else
      (s, some epoch)

/-- Second half of Global::migrate: line 66 repeatedly boxed_pops
bags[epoch.decrease()], dropping each popped bag and hence running the
destructor of every payload it holds (in stack pop order, and within a
bag in vector order); line 69 stores epoch.increase() into the global
epoch; the roster stack guard is dropped at the end of the scope. -/
def migrateDrainPart {T : Type} (s : GlobalState T) (epoch : Epoch) :
    GlobalState T :=
  let drained := s.bags.get epoch.decrease
  { s with
    bags := s.bags.set epoch.decrease []
    destroyed := s.destroyed ++ drained.flatten
    epoch := epoch.increase
    rosterTaken := false }

/-- Embeds Global::migrate (gc.rs lines 52-71) as one sequential pass:
the scan part followed, when it did not return early, by the drain
part. -/
def Global.migrate {T : Type} (s : GlobalState T) (guardEpoch : Epoch)
    (bag : List T) : GlobalState T :=
  match migrateScanPart s guardEpoch bag with
  | (s, none) => s
  | (s, some epoch) => migrateDrainPart s epoch

/-- Runs a list of sequential migrate passes (each pass given by its
guard epoch and migrated bag contents) and collects the epoch values
published by the store on line 69, in order. A pass publishes exactly
when it reaches the store, which in the sequential model is exactly
when the epoch changes, since Epoch::increase has no fixed point. -/
def runPasses {T : Type} (s : GlobalState T) :
    List (Epoch × List T) → List Epoch
  | [] => []
  | (g, b) :: rest =>
    let next := Global.migrate s g b
    if next.epoch = s.epoch then runPasses next rest
    else next.epoch :: runPasses next rest

/-! ## Local::pin and PinGuard (src/gc/gc.rs, lines 74-108)

pin (lines 93-108) debug-asserts that the flag reads Unpin, loads the
global epoch, stores Flag::from_epoch of it into the flag and returns a
PinGuard capturing that epoch; PinGuard::drop (lines 79-83) stores
Unpin into the flag. The model is a transition system over one Local:
the state is the flag value and the epoch captured by the live guard,
if any; each pin event carries the global epoch value its load
returns. Pinning while a guard is live violates the debug-checked
precondition and is excluded by making it a no-op; dropping when no
guard is live is impossible in Rust and is likewise a no-op. -/

structure LocalPinState where
  flag : Flag
  guard : Option Epoch
deriving DecidableEq, Repr

/-- A freshly registered Local: flag Unpin (gc.rs lines 42-44), no
guard. -/
def LocalPinState.init : LocalPinState := ⟨Flag.Unpin, none⟩

inductive PinAction where
  | pin (globalEpoch : Epoch)
  | unpin
deriving DecidableEq, Repr

/-- One pin or unpin event on a Local. -/
def pinStep (s : LocalPinState) : PinAction → LocalPinState
  | .pin ge =>
    match s.guard with
    | some _ => s
    | none => ⟨Flag.from_epoch ge, some ge⟩
  | .unpin =>
    match s.guard with
    | some _ => ⟨Flag.Unpin, none⟩
    | none => s

/-- A sequence of pin events from a freshly registered Local. -/
def pinRun (acts : List PinAction) : LocalPinState :=
  acts.foldl pinStep LocalPinState.init

/-! ## Local::migrate, the defer-drop entry point (src/gc/gc.rs, lines
109-120)

The payload is pushed into the private bag; if the bag is then full it
is swapped for a fresh empty one and the full bag is handed to
Global::migrate. The pure model returns the new private bag and the
full bag handed over, if any. -/

/-- Embeds Local::migrate (gc.rs lines 109-120). -/
def Local.migrate {T : Type} {CAP : Nat} (bag : Bag T CAP) (garbage : T) :
    Bag T CAP × Option (Bag T CAP) :=
  let bag := bag.push garbage
  if bag.is_full then (Bag.empty, some bag) else (bag, none)

/-- The private bag after a sequence of defer-drop calls starting from
the empty bag of a fresh Local. -/
def deferRun {T : Type} (CAP : Nat) (gs : List T) : Bag T CAP :=
  gs.foldl (fun b g => (Local.migrate b g).1) Bag.empty

/-! ## Invariant predicates -/

/-- The ownership invariant: at most one guard is live, and is_taken
holds exactly while one is. -/
def OwnInv (s : OwnState) : Prop :=
  s.liveGuards ≤ 1 ∧ (s.is_taken = true ↔ s.liveGuards = 1)

/-- The pin invariant of one Local: while a guard capturing E is live
the flag reads Flag::from_epoch(E), and with no live guard it reads
Unpin. -/
def PinInv (s : LocalPinState) : Prop :=
  (∀ E, s.guard = some E → s.flag = Flag.from_epoch E)
  ∧ (s.guard = none → s.flag = Flag.Unpin)

/-! ## Concrete states for counterexamples and interleaved traces -/

/-- A reachable straggler configuration: the global epoch is Epoch1 and
one participant is still pinned under Epoch0 = prev(Epoch1), so its
roster flag reads Flag::from_epoch(prev(E)). -/
def c2state : GlobalState Nat :=
  ⟨.Epoch1, ⟨[], [], []⟩, [Flag.Epoch0], false, []⟩

/-! ### An interleaved execution of two participants

CAP = 1; payloads are numbered. Participant A registered first and
participant B second, so the roster stack lists the flag of B at index
0 and the flag of A at index 1. Every definition below performs the
atomic operations of one contiguous source region of one thread; the
schedule is:

1. A enters Local::pin and executes the epoch load of gc.rs line 99,
   reading Epoch0. A is preempted before the flag store of line 101.
2. B runs pin; defer-drop of payload 1; unpin; pin again; and the
   defer-drop of payload 2 up to the end of the roster scan of
   Global::migrate (gc.rs line 64). With CAP = 1 each defer-drop hands
   a full one-payload bag to Global::migrate.
3. A resumes and executes the flag store of line 101, publishing
   Flag::from_epoch(Epoch0), and its PinGuard capturing Epoch0 is
   created (lines 104-107, thread-local). A is now pinned under Epoch0.
4. B executes the drain and epoch store of gc.rs lines 66-70.

All these steps are single atomic operations or contiguous runs of one
thread, so this is a legal sequentially consistent interleaving of the
source program. -/

/-- Initial state: fresh Global, both participants registered with
Unpin flags (gc.rs lines 42-51). -/
def traceS0 : GlobalState Nat :=
  ⟨.Epoch0, ⟨[], [], []⟩, [Flag.Unpin, Flag.Unpin], false, []⟩

/-- The epoch value read by the load of gc.rs line 99 executed by A at
traceS0. -/
def traceEA : Epoch := traceS0.epoch

/-- The epoch value read by the load of gc.rs line 99 executed by B at
traceS0, captured by the first PinGuard of B. -/
def traceEB1 : Epoch := traceS0.epoch

/-- B executes the flag store of gc.rs line 101. -/
def traceS1 : GlobalState Nat :=
  { traceS0 with flags := traceS0.flags.set 0 (Flag.from_epoch traceEB1) }

/-- B defers payload 1: with CAP = 1 the private bag fills and
Global::migrate runs uninterrupted as one contiguous region of B. -/
def traceS2 : GlobalState Nat := Global.migrate traceS1 traceEB1 [1]

/-- The first PinGuard of B is destroyed: the store of gc.rs line 81
publishes Unpin. -/
def traceS3 : GlobalState Nat :=
  { traceS2 with flags := traceS2.flags.set 0 Flag.Unpin }

/-- The epoch value read by the second pin of B (gc.rs line 99) at
traceS3. -/
def traceEB2 : Epoch := traceS3.epoch

/-- B executes the flag store of its second pin (gc.rs line 101). -/
def traceS4 : GlobalState Nat :=
  { traceS3 with flags := traceS3.flags.set 0 (Flag.from_epoch traceEB2) }

/-- B defers payload 2 and runs Global::migrate through the end of the
roster scan (gc.rs lines 54-64); the scan sees the flag of B equal to
Flag::from_epoch(Epoch1) and the flag of A still Unpin. -/
def traceScan : GlobalState Nat × Option Epoch :=
  migrateScanPart traceS4 traceEB2 [2]

/-- The shared state after the scan of B. -/
def traceS5 : GlobalState Nat := traceScan.1

/-- A resumes and executes the flag store of gc.rs line 101 with the
epoch it loaded in step 1; its PinGuard capturing Epoch0 is created.
A is now pinned under Epoch0. -/
def traceS6 : GlobalState Nat :=
  { traceS5 with flags := traceS5.flags.set 1 (Flag.from_epoch traceEA) }

/-- B proceeds to the drain and epoch publication (gc.rs lines 66-70),
which it reaches exactly because the scan returned the loaded epoch. -/
def traceS7 : GlobalState Nat :=
  match traceScan.2 with
  | some e => migrateDrainPart traceS6 e
  | none => traceS6

/-! ## Helper lemmas -/

/-- Applying increase three times is the identity on every epoch. -/
theorem Epoch.increase_increase_increase (e : Epoch) :
    e.increase.increase.increase = e := by
  cases e <;> rfl

/-- The first component of boxed_pop is the head of the node chain. -/
theorem boxed_pop_fst {T : Type} (s : List T) : (boxed_pop s).1 = s.head? := by
  cases s <;> rfl

/-- The second component of boxed_pop is the tail of the node chain. -/
theorem boxed_pop_snd {T : Type} (s : List T) : (boxed_pop s).2 = s.tail := by
  cases s <;> rfl

/-- Popping the reversed specification list drops its last element. -/
theorem boxed_pop_reverse_snd {T : Type} (acc : List T) :
    (boxed_pop acc.reverse).2 = acc.dropLast.reverse := by
  rcases acc.eq_nil_or_concat with h | ⟨l, a, h⟩
  · subst h; rfl
  · subst h
    simp [boxed_pop_snd]

/-- The node chain produced by a sequential history is the reverse of
the pending-push specification list. -/
theorem runOps_eq_pendingOf {T : Type} :
    ∀ (ops : List (StackOp T)) (acc : List T),
      runOps ops acc.reverse = (pendingOf ops acc).reverse := by
  intro ops
  induction ops with
  | nil => intro acc; rfl
  | cons op rest ih =>
    intro acc
    cases op with
    | push v =>
      have h : boxed_push acc.reverse v = (acc ++ [v]).reverse := by
        simp [boxed_push]
      simp only [runOps, pendingOf, h]
      exact ih (acc ++ [v])
    | pop =>
      simp only [runOps, pendingOf, boxed_pop_reverse_snd]
      exact ih acc.dropLast

/-- pushAll prepends the values in reverse order. -/
theorem pushAll_eq_reverse_append {T : Type} :
    ∀ (vs : List T) (s : List T), pushAll s vs = vs.reverse ++ s := by
  intro vs
  induction vs with
  | nil => intro s; rfl
  | cons v rest ih =>
    intro s
    simp only [pushAll, boxed_push, ih (v :: s), List.reverse_cons,
      List.append_assoc, List.singleton_append]

/-- Popping as many times as a prefix is long returns exactly that
prefix. -/
theorem popStream_append {T : Type} :
    ∀ (l s : List T), popStream l.length (l ++ s) = l.map some := by
  intro l
  induction l with
  | nil => intro s; rfl
  | cons v rest ih =>
    intro s
    simp only [List.length_cons, popStream, boxed_pop, List.cons_append,
      List.map_cons, ih s]

/-- Every ownership event preserves the ownership invariant. -/
theorem ownStep_preserves (s : OwnState) (a : OwnAction) (h : OwnInv s) :
    OwnInv (ownStep s a) := by
  obtain ⟨hle, hiff⟩ := h
  cases a with
  | tryOwn =>
    by_cases ht : s.is_taken
    · simpa [ownStep, try_own, ht] using ⟨hle, hiff⟩
    · have h0 : s.liveGuards = 0 := by
        rcases Nat.lt_or_ge s.liveGuards 1 with h1 | h1
        · omega
        · exfalso
          have : s.liveGuards = 1 := by omega
          have := hiff.mpr this
          simp [this] at ht
      simp [ownStep, try_own, ht, OwnInv, h0]
  | dropGuard =>
    by_cases hg : s.liveGuards = 0
    · simpa [ownStep, hg] using ⟨hle, hiff⟩
    · have h1 : s.liveGuards = 1 := by omega
      simp [ownStep, if_neg hg, OwnInv, h1]

/-- The ownership invariant holds after any event sequence. -/
theorem ownRun_inv (acts : List OwnAction) : OwnInv (ownRun acts) := by
  have main : ∀ (l : List OwnAction) (s : OwnState), OwnInv s →
      OwnInv (l.foldl ownStep s) := by
    intro l
    induction l with
    | nil => intro s h; exact h
    | cons a rest ih =>
      intro s h
      exact ih (ownStep s a) (ownStep_preserves s a h)
  exact main acts OwnState.init ⟨by simp [OwnState.init], by simp [OwnState.init]⟩

/-- from_epoch never yields Unpin. -/
theorem from_epoch_ne_unpin (e : Epoch) : Flag.from_epoch e ≠ Flag.Unpin := by
  cases e <;> simp [Flag.from_epoch]

/-- Every pin event preserves the pin invariant. -/
theorem pinStep_preserves (s : LocalPinState) (a : PinAction) (h : PinInv s) :
    PinInv (pinStep s a) := by
  obtain ⟨hsome, hnone⟩ := h
  cases a with
  | pin ge =>
    cases hg : s.guard with
    | some E => simpa [pinStep, hg] using ⟨fun E2 h2 => hsome E2 (hg ▸ h2), fun h2 => hnone (hg ▸ h2)⟩
    | none =>
      constructor
      · intro E hE
        simp [pinStep, hg] at hE ⊢
        exact hE ▸ rfl
      · intro hE
        simp [pinStep, hg] at hE
  | unpin =>
    cases hg : s.guard with
    | some E => simp [pinStep, hg, PinInv]
    | none => simpa [pinStep, hg] using ⟨hsome, hnone⟩

/-- The pin invariant holds after any event sequence on a fresh
Local. -/
theorem pinRun_inv (acts : List PinAction) : PinInv (pinRun acts) := by
  have main : ∀ (l : List PinAction) (s : LocalPinState), PinInv s →
      PinInv (l.foldl pinStep s) := by
    intro l
    induction l with
    | nil => intro s h; exact h
    | cons a rest ih =>
      intro s h
      exact ih (pinStep s a) (pinStep_preserves s a h)
  exact main acts LocalPinState.init ⟨fun E h => by simp [LocalPinState.init] at h, fun _ => rfl⟩

/-- Indexing a bag stack after replacing one slot. -/
theorem Bags3.get_set {T : Type} (b : Bags3 T) (e e2 : Epoch) (l : List (List T)) :
    (b.set e l).get e2 = if e2 = e then l else b.get e2 := by
  cases e <;> cases e2 <;> simp [Bags3.set, Bags3.get]

/-- Case analysis of one sequential migrate pass: either the pass does
not touch the epoch, the roster ownership bit, or the destroyed list at
all, and the only state change is the pushed bag; or the roster was
free, the scan found no flag equal to flag_of(prev(E)), the bag stack
of prev(E) is drained and the epoch advances by exactly one. -/
theorem migrate_cases {T : Type} (s : GlobalState T) (g : Epoch) (b : List T) :
    (Global.migrate s g b
        = { s with bags := s.bags.set g (b :: s.bags.get g) })
    ∨ ((Global.migrate s g b).epoch = s.epoch.increase
        ∧ s.rosterTaken = false
        ∧ s.flags.any (fun f => f == Flag.from_epoch s.epoch.decrease) = false
        ∧ Global.migrate s g b
            = { s with
                bags := (s.bags.set g (b :: s.bags.get g)).set s.epoch.decrease []
                destroyed := s.destroyed
                  ++ ((s.bags.set g (b :: s.bags.get g)).get s.epoch.decrease).flatten
                epoch := s.epoch.increase
                rosterTaken := false }) := by
  by_cases ht : s.rosterTaken
  · left
    simp [Global.migrate, migrateScanPart, ht]
  · by_cases hscan : s.flags.any (fun f => f == Flag.from_epoch s.epoch.decrease)
    · left
      simp only [Global.migrate, migrateScanPart, if_neg ht, hscan, if_true]
      simp [Bool.not_eq_true] at ht
      simp [ht]
    · right
      simp only [Bool.not_eq_true] at hscan
      refine ⟨?_, by simpa using ht, hscan, ?_⟩ <;>
        simp [Global.migrate, migrateScanPart, migrateDrainPart, ht, hscan]

/-- A migrate pass leaves the epoch alone or advances it by one. -/
theorem migrate_epoch_step {T : Type} (s : GlobalState T) (g : Epoch) (b : List T) :
    (Global.migrate s g b).epoch = s.epoch
    ∨ (Global.migrate s g b).epoch = s.epoch.increase := by
  rcases migrate_cases s g b with h | h
  · left; rw [h]
  · right; exact h.1

/-- Epoch publications of a sequence of sequential migrate passes: the
list of published epochs forms a chain of single increase steps, and
its first element, when present, is the increase of the starting
epoch. -/
theorem runPasses_chain {T : Type} :
    ∀ (l : List (Epoch × List T)) (s : GlobalState T),
      List.Chain' (fun a c => c = a.increase) (runPasses s l)
      ∧ ∀ x, (runPasses s l).head? = some x → x = s.epoch.increase := by
  intro l
  induction l with
  | nil => intro s; exact ⟨List.chain'_nil, fun x h => by simp [runPasses] at h⟩
  | cons p rest ih =>
    intro s
    obtain ⟨g, b⟩ := p
    by_cases he : (Global.migrate s g b).epoch = s.epoch
    · have hr : runPasses s ((g, b) :: rest) = runPasses (Global.migrate s g b) rest := by
        simp [runPasses, he]
      obtain ⟨hchain, hhead⟩ := ih (Global.migrate s g b)
      refine ⟨hr ▸ hchain, fun x hx => ?_⟩
      rw [hr] at hx
      rw [hhead x hx, he]
    · have hinc : (Global.migrate s g b).epoch = s.epoch.increase := by
        rcases migrate_epoch_step s g b with h | h
        · exact absurd h he
        · exact h
      have hr : runPasses s ((g, b) :: rest)
          = (Global.migrate s g b).epoch :: runPasses (Global.migrate s g b) rest := by
        simp [runPasses, he]
      obtain ⟨hchain, hhead⟩ := ih (Global.migrate s g b)
      constructor
      · rw [hr]
        rw [List.chain'_cons']
        exact ⟨fun y hy => by rw [hhead y hy, hinc], hchain⟩
      · intro x hx
        rw [hr] at hx
        simp at hx
        rw [← hx, hinc]

/-- Pushing one payload into a not-full bag keeps the length below CAP
once the swap-out is taken into account. -/
theorem localMigrate_preserves {T : Type} {CAP : Nat} (hCAP : 1 ≤ CAP)
    (b : Bag T CAP) (g : T) (h : b.data.length < CAP) :
    ((Local.migrate b g).1).data.length < CAP := by
  by_cases hf : (b.push g).is_full
  · simp [Local.migrate, hf, Bag.empty]
    omega
  · simp only [Local.migrate, hf, if_false, Bool.false_eq_true, if_neg]
    simp only [Bag.is_full, Bag.push, List.length_append, List.length_singleton,
      beq_iff_eq] at hf ⊢
    omega

/-- After any sequence of defer-drop calls the private bag holds fewer
than CAP payloads, provided CAP is at least one. -/
theorem deferRun_lt {T : Type} {CAP : Nat} (hCAP : 1 ≤ CAP) (gs : List T) :
    (deferRun CAP gs).data.length < CAP := by
  have main : ∀ (l : List T) (b : Bag T CAP), b.data.length < CAP →
      (l.foldl (fun b g => (Local.migrate b g).1) b).data.length < CAP := by
    intro l
    induction l with
    | nil => intro b h; exact h
    | cons g rest ih =>
      intro b h
      exact ih _ (localMigrate_preserves hCAP b g h)
  exact main gs Bag.empty (by simpa [Bag.empty] using hCAP)

/-! ## Claims -/

/-- C9: the epoch successor function satisfies next(E0)=E1, next(E1)=E2,
next(E2)=E0; the predecessor satisfies prev(E) = next(next(E)) for every
epoch; applying next 3k times to any epoch returns that epoch for every
k, so next is a 3-cycle and prev is its inverse. -/
theorem C9_epoch_cycle :
    (Epoch.increase .Epoch0 = .Epoch1
      ∧ Epoch.increase .Epoch1 = .Epoch2
      ∧ Epoch.increase .Epoch2 = .Epoch0)
    ∧ (∀ e : Epoch, e.decrease = e.increase.increase)
    ∧ (∀ (e : Epoch) (k : Nat), Epoch.increase^[3 * k] e = e)
    ∧ (∀ e : Epoch, e.increase.decrease = e ∧ e.decrease.increase = e) := by
  refine ⟨⟨rfl, rfl, rfl⟩, ?_, ?_, ?_⟩
  · intro e; cases e <;> rfl
  · intro e k
    induction k with
    | zero => simp
    | succ n ih =>
      have h3 : ∀ x : Epoch, Epoch.increase^[3] x = x := by
        intro x; cases x <;> rfl
      have : 3 * (n + 1) = 3 * n + 3 := by ring
      rw [this, Function.iterate_add_apply, h3, ih]
  · intro e; cases e <;> exact ⟨rfl, rfl⟩

/-- C3 counterexample: constructing a Global with CAP = 0 does not
abort; the derived default constructor is total and yields exactly the
same state as construction with CAP = 1: epoch Epoch0, three empty bag
stacks and an empty, untaken roster. This refutes the claim that CAP = 0
aborts at construction. -/
theorem C3_counterexample :
    Global.defaultState Nat 0 = Global.defaultState Nat 1
    ∧ (Global.defaultState Nat 0).epoch = Epoch.Epoch0
    ∧ (Global.defaultState Nat 0).bags = ⟨[], [], []⟩
    ∧ (Global.defaultState Nat 0).flags = []
    ∧ (Global.defaultState Nat 0).rosterTaken = false := by
  exact ⟨rfl, rfl, rfl, rfl, rfl⟩

/-- C3 amended: construction of a Global performs no validation of CAP
and cannot abort: for every CAP, including 0, it succeeds and yields
epoch Epoch0 with empty bags and an empty, untaken roster. -/
theorem C3_construct_default (T : Type) (CAP : Nat) :
    (Global.defaultState T CAP).epoch = Epoch.Epoch0
    ∧ (Global.defaultState T CAP).bags = ⟨[], [], []⟩
    ∧ (Global.defaultState T CAP).flags = []
    ∧ (Global.defaultState T CAP).rosterTaken = false :=
  ⟨rfl, rfl, rfl, rfl⟩

/-- C7: in every sequential history of push and pop on one stack, pop on
the empty stack returns none; pop immediately after push(v) returns v
and restores the previous stack; after any history the stack holds
exactly the pushed-but-not-popped values, so a pop returns the most
recently pushed value not yet popped; and after pushing the values of a
list in order, popping length-many times returns them in reverse
order. -/
theorem C7_stack_lifo (T : Type) :
    (boxed_pop ([] : List T) = (none, []))
    ∧ (∀ (s : List T) (v : T), boxed_pop (boxed_push s v) = (some v, s))
    ∧ (∀ ops : List (StackOp T), runOps ops [] = (pendingOf ops []).reverse)
    ∧ (∀ ops : List (StackOp T),
        (boxed_pop (runOps ops [])).1 = (pendingOf ops []).getLast?)
    ∧ (∀ vs : List T, popStream vs.length (pushAll [] vs) = vs.reverse.map some) := by
  refine ⟨rfl, fun s v => rfl, ?_, ?_, ?_⟩
  · intro ops
    have h := runOps_eq_pendingOf ops []
    rwa [List.reverse_nil] at h
  · intro ops
    have h := runOps_eq_pendingOf ops []
    rw [List.reverse_nil] at h
    rw [h, boxed_pop_fst, List.head?_reverse]
  · intro vs
    rw [pushAll_eq_reverse_append, ← List.length_reverse,
      popStream_append vs.reverse []]

/-- C8: try_own returns a guard exactly when is_taken was false, in
which case it compare-and-swaps it to true; in every reachable state at
most one guard is live, is_taken holds exactly while one is, so while a
guard is live every further try_own returns none; and destroying a live
guard resets is_taken to false. -/
theorem C8_try_own_guard :
    (∀ s : OwnState, (try_own s).1.isSome = !s.is_taken)
    ∧ (∀ s : OwnState, s.is_taken = false →
        (try_own s).2 = ⟨true, s.liveGuards + 1⟩)
    ∧ (∀ acts : List OwnAction,
        (ownRun acts).liveGuards ≤ 1
        ∧ ((ownRun acts).is_taken = true ↔ (ownRun acts).liveGuards = 1))
    ∧ (∀ acts : List OwnAction, (ownRun acts).liveGuards = 1 →
        (try_own (ownRun acts)).1 = none)
    ∧ (∀ s : OwnState, s.liveGuards ≠ 0 →
        (ownStep s .dropGuard).is_taken = false) := by
  refine ⟨?_, ?_, ownRun_inv, ?_, ?_⟩
  · intro s
    by_cases h : s.is_taken <;> simp [try_own, h]
  · intro s h
    simp [try_own, h]
  · intro acts h
    have ht : (ownRun acts).is_taken = true := (ownRun_inv acts).2.mpr h
    simp [try_own, ht]
  · intro s h
    simp [ownStep, h]

/-- C8 witness: concrete runs discharging each hypothesis of the
try_own theorem. -/
theorem C8_try_own_guard_witness :
    (try_own (⟨false, 0⟩ : OwnState)).2 = ⟨true, 1⟩
    ∧ (try_own (ownRun [OwnAction.tryOwn])).1 = none
    ∧ (ownStep ⟨true, 1⟩ OwnAction.dropGuard).is_taken = false :=
  ⟨C8_try_own_guard.2.1 ⟨false, 0⟩ rfl,
   C8_try_own_guard.2.2.2.1 [OwnAction.tryOwn] (by decide),
   C8_try_own_guard.2.2.2.2 ⟨true, 1⟩ (by decide)⟩

/-- C5: on a Local whose flag currently reads Unpin, a pin event that
loads global epoch E stores Flag::from_epoch(E) into the flag and
creates a guard capturing E; in every reachable state of a Local, while
a guard capturing E is live the flag reads Flag::from_epoch(E), and
with no live guard it reads Unpin; destroying a live guard stores Unpin
into the flag and ends the guard. -/
theorem C5_pin_pinguard :
    (∀ (acts : List PinAction) (ge : Epoch), (pinRun acts).flag = Flag.Unpin →
        pinStep (pinRun acts) (.pin ge) = ⟨Flag.from_epoch ge, some ge⟩)
    ∧ (∀ acts : List PinAction,
        (∀ E, (pinRun acts).guard = some E →
          (pinRun acts).flag = Flag.from_epoch E)
        ∧ ((pinRun acts).guard = none → (pinRun acts).flag = Flag.Unpin))
    ∧ (∀ s : LocalPinState, s.guard.isSome = true →
        pinStep s .unpin = ⟨Flag.Unpin, none⟩) := by
  refine ⟨?_, pinRun_inv, ?_⟩
  · intro acts ge hUnpin
    have hinv := pinRun_inv acts
    cases hg : (pinRun acts).guard with
    | some E =>
      exfalso
      exact from_epoch_ne_unpin E (by rw [← hinv.1 E hg]; exact hUnpin)
    | none => simp [pinStep, hg]
  · intro s hs
    cases hg : s.guard with
    | some E => simp [pinStep, hg]
    | none => rw [hg] at hs; simp at hs

/-- C5 witness: the pin theorem applied to the freshly registered Local
and to a concretely pinned state, discharging each hypothesis. -/
theorem C5_pin_pinguard_witness :
    pinStep (pinRun []) (.pin .Epoch1) = ⟨Flag.Epoch1, some .Epoch1⟩
    ∧ ((pinRun [PinAction.pin .Epoch2]).guard = some .Epoch2 →
        (pinRun [PinAction.pin .Epoch2]).flag = Flag.from_epoch .Epoch2)
    ∧ pinStep ⟨Flag.Epoch1, some .Epoch1⟩ .unpin = ⟨Flag.Unpin, none⟩ :=
  ⟨C5_pin_pinguard.1 [] .Epoch1 rfl,
   (C5_pin_pinguard.2.1 [PinAction.pin .Epoch2]).1 .Epoch2,
   C5_pin_pinguard.2.2 ⟨Flag.Epoch1, some .Epoch1⟩ rfl⟩

/-- C6: with CAP at least one, the private bag of a Local holds at most
CAP payloads after every sequence of defer-drop calls (in fact fewer
than CAP, since the bag is swapped out the moment it fills); a
defer-drop hands a bag to Global::migrate exactly when the push brings
the bag to CAP elements, and when it does, the handed-over bag holds
exactly CAP payloads and the private bag is replaced by a fresh empty
one. -/
theorem C6_bag_capacity (T : Type) (CAP : Nat) (hCAP : 1 ≤ CAP) :
    (∀ gs : List T, (deferRun CAP gs).data.length ≤ CAP)
    ∧ (∀ (b : Bag T CAP) (g : T),
        (Local.migrate b g).2.isSome = (b.push g).is_full)
    ∧ (∀ (b : Bag T CAP) (g : T) (fb : Bag T CAP),
        (Local.migrate b g).2 = some fb →
          fb.data.length = CAP ∧ (Local.migrate b g).1 = Bag.empty) := by
  refine ⟨fun gs => Nat.le_of_lt (deferRun_lt hCAP gs), ?_, ?_⟩
  · intro b g
    by_cases hf : (b.push g).is_full <;> simp [Local.migrate, hf]
  · intro b g fb h
    by_cases hf : (b.push g).is_full
    · simp only [Local.migrate, hf, if_true, Option.some.injEq] at h
      have hlen : (b.push g).data.length = CAP := by
        simpa [Bag.is_full, beq_iff_eq] using hf
      exact ⟨h ▸ hlen, by simp [Local.migrate, hf]⟩
    · simp [Local.migrate, hf] at h

/-- C6 witness: CAP = 1 and a concrete defer-drop history, discharging
each hypothesis of the capacity theorem. -/
theorem C6_bag_capacity_witness :
    (deferRun 1 [10, 20, 30] : Bag Nat 1).data.length ≤ 1
    ∧ (Local.migrate (Bag.empty : Bag Nat 1) 10).2.isSome
        = ((Bag.empty : Bag Nat 1).push 10).is_full
    ∧ ((Local.migrate (Bag.empty : Bag Nat 1) 10).2 = some ⟨[10]⟩ →
        (⟨[10]⟩ : Bag Nat 1).data.length = 1
          ∧ (Local.migrate (Bag.empty : Bag Nat 1) 10).1 = Bag.empty) :=
  ⟨(C6_bag_capacity Nat 1 (by decide)).1 [10, 20, 30],
   (C6_bag_capacity Nat 1 (by decide)).2.1 Bag.empty 10,
   (C6_bag_capacity Nat 1 (by decide)).2.2 Bag.empty 10 ⟨[10]⟩⟩

/-- C2 counterexample: a migrate pass invoked at global epoch Epoch1 by
a straggler still pinned under Epoch0 = prev(Epoch1), whose own roster
flag therefore reads Flag::from_epoch(prev(E)) throughout the pass. The
pass pushes the migrated bag into bags[guard.epoch] = bags[prev(E)]
before the scan, so bags[prev(E)] is changed by the pass even though a
flag reading flag_of(prev(E)) is present: the claim that bags[prev(E)]
is unchanged by such a pass is false. -/
theorem C2_counterexample :
    (Flag.from_epoch (c2state.epoch.decrease) ∈ c2state.flags)
    ∧ (Global.migrate c2state .Epoch0 [7]).bags.get (c2state.epoch.decrease)
        ≠ c2state.bags.get (c2state.epoch.decrease) := by
  decide

/-- C2 amended: if any roster flag reads flag_of(prev(E)) during a
migrate pass, the pass pops and drops nothing from bags[prev(E)] and
publishes no epoch; the only change to bags[prev(E)] is that it gains
the migrated bag itself when the guard epoch equals prev(E). -/
theorem C2_no_reclamation_under_witness {T : Type} (s : GlobalState T)
    (g : Epoch) (b : List T)
    (h : Flag.from_epoch s.epoch.decrease ∈ s.flags) :
    (Global.migrate s g b).bags.get s.epoch.decrease
      = (if s.epoch.decrease = g then b :: s.bags.get s.epoch.decrease
         else s.bags.get s.epoch.decrease)
    ∧ (Global.migrate s g b).destroyed = s.destroyed
    ∧ (Global.migrate s g b).epoch = s.epoch := by
  have hany : s.flags.any (fun f => f == Flag.from_epoch s.epoch.decrease) = true := by
    rw [List.any_eq_true]
    exact ⟨Flag.from_epoch s.epoch.decrease, h, by simp⟩
  rcases migrate_cases s g b with hm | hm
  · rw [hm]
    refine ⟨?_, rfl, rfl⟩
    rw [Bags3.get_set]
    by_cases hg : s.epoch.decrease = g <;> simp [hg]
  · exact absurd hm.2.2.1 (by simp [hany])

/-- C2 witness: the amended theorem applied to the concrete straggler
state, discharging its hypothesis. -/
theorem C2_no_reclamation_under_witness_witness :
    (Global.migrate c2state .Epoch0 [7]).bags.get c2state.epoch.decrease
      = (if c2state.epoch.decrease = .Epoch0 then [7] :: c2state.bags.get c2state.epoch.decrease
         else c2state.bags.get c2state.epoch.decrease)
    ∧ (Global.migrate c2state .Epoch0 [7]).destroyed = c2state.destroyed
    ∧ (Global.migrate c2state .Epoch0 [7]).epoch = c2state.epoch :=
  C2_no_reclamation_under_witness c2state .Epoch0 [7] (by decide)

/-- C4: a migrate pass leaves the epoch unchanged or advances it by
exactly one increase step; whenever it publishes (i.e. changes the
epoch), the published value is the increase of the epoch the pass
loaded, the roster was successfully owned, and the witness scan found
no flag equal to flag_of(prev(E)); and over any sequence of passes the
published epochs form a chain of single increase steps, with no
skips. -/
theorem C4_epoch_monotonicity {T : Type} (s : GlobalState T) (g : Epoch)
    (b : List T) (l : List (Epoch × List T)) :
    ((Global.migrate s g b).epoch = s.epoch
      ∨ (Global.migrate s g b).epoch = s.epoch.increase)
    ∧ ((Global.migrate s g b).epoch ≠ s.epoch →
        ((Global.migrate s g b).epoch = s.epoch.increase
          ∧ s.rosterTaken = false
          ∧ s.flags.any (fun f => f == Flag.from_epoch s.epoch.decrease) = false))
    ∧ List.Chain' (fun a c => c = a.increase) (runPasses s l) := by
  refine ⟨migrate_epoch_step s g b, ?_, (runPasses_chain l s).1⟩
  intro hne
  rcases migrate_cases s g b with hm | hm
  · exact absurd (by rw [hm]) hne
  · exact ⟨hm.1, hm.2.1, hm.2.2.1⟩

/-- C4 witness: a pass from the fresh Global advances the epoch, so the
publication hypothesis is discharged concretely. -/
theorem C4_epoch_monotonicity_witness :
    (Global.migrate (Global.defaultState Nat 1) .Epoch0 [5]).epoch
        = (Global.defaultState Nat 1).epoch.increase
    ∧ (Global.defaultState Nat 1).rosterTaken = false
    ∧ (Global.defaultState Nat 1).flags.any
        (fun f => f == Flag.from_epoch (Global.defaultState Nat 1).epoch.decrease) = false :=
  (C4_epoch_monotonicity (Global.defaultState Nat 1) .Epoch0 [5]
    [(.Epoch0, [1])]).2.1 (by decide)

/-- C10 counterexample: when the roster is already owned at entry (the
only situation in which the try_own of gc.rs line 59 fails, namely a
concurrent pass holds the StackGuard), migrate returns with is_taken
still true, not false: the claim that is_taken is false after every
return, including the failed-try_own path, is false. -/
theorem C10_counterexample :
    (Global.migrate (⟨.Epoch0, ⟨[], [], []⟩, [], true, []⟩ : GlobalState Nat)
      .Epoch0 [0]).rosterTaken = true := by
  decide

/-- C10 amended: every return path of migrate leaves the roster
ownership bit exactly as it was at entry: the two owning paths (early
return mid-scan and completed drain plus publication) drop the
StackGuard before returning, and the failed-try_own path never acquired
it. In particular a pass entered with the roster free leaves it free,
so no migrate pass can permanently block future reclamation
attempts. -/
theorem C10_migrate_releases_roster {T : Type} (s : GlobalState T)
    (g : Epoch) (b : List T) :
    (Global.migrate s g b).rosterTaken = s.rosterTaken := by
  rcases migrate_cases s g b with hm | hm
  · rw [hm]
  · rw [hm.2.2.2, hm.2.1]

/-- C1: evaluation of the interleaved schedule of the trace
definitions. With CAP = 1 each defer-drop hands a full one-payload bag
to Global::migrate; participant B reaches the drain because its scan
returned the loaded epoch Epoch1; at the moment the drain runs
(traceS6) the global epoch is Epoch1 and the flag of participant A
(roster index 1) reads Flag::from_epoch(Epoch0) =
flag_of(prev(Epoch1)), A holding a live PinGuard capturing Epoch0; the
drain nevertheless destroys payload 1, and the flag of A still reads
flag_of(Epoch0) afterwards. So the destructor of a deferred payload
runs while a participant is pinned under prev(E) for E the global epoch
current at that time. -/
theorem C1_destruction_under_live_pin :
    (Local.migrate (Bag.empty : Bag Nat 1) 1).2 = some ⟨[1]⟩
    ∧ (Local.migrate (Bag.empty : Bag Nat 1) 2).2 = some ⟨[2]⟩
    ∧ traceEA = Epoch.Epoch0
    ∧ traceScan.2 = some Epoch.Epoch1
    ∧ traceS6.epoch = Epoch.Epoch1
    ∧ traceS6.flags.get? 1 = some (Flag.from_epoch traceS6.epoch.decrease)
    ∧ traceS6.destroyed = []
    ∧ traceS7.destroyed = [1]
    ∧ traceS7.flags.get? 1 = some (Flag.from_epoch Epoch.Epoch0) := by
  decide

end AtomicRs
